import Mathlib

/-!
Shallow embedding of the core of `pricer.py` (Bermudan swaption pricer,
v12 hybrid) and proofs about its specified behaviour.

The embedding translates each relevant Python function into a Lean
definition.  External QuantLib calls (curve construction, the
finite-difference Hull-White valuation) are modelled as oracle function
parameters; a Python exception raised by such a call is modelled as the
value `none` of an `Option` result.  Python floats are modelled as exact
rationals where the source only uses field arithmetic and comparisons, and
as real numbers where the source uses `math.exp`, `math.erf`, `math.sqrt`
or `math.log`.
-/

namespace BermudanPricerPy

/-! ## Vol surface interpolator (`vol_interp`) -/

/-- Clamp a value to the closed range between `lo` and `hi`, as
`numpy.clip` does: the maximum with `lo` is applied first, then the
minimum with `hi`. -/
def clip (x lo hi : ℚ) : ℚ := min (max x lo) hi

/-- Leftmost index whose grid value is greater than or equal to `v`, or
the length of the grid when every entry is smaller: `numpy.searchsorted`
with its default left side on a sorted one-dimensional grid. -/
def searchsorted (grid : List ℚ) (v : ℚ) : ℕ :=
  grid.findIdx (fun g => decide (v ≤ g))

/-- Bilinear interpolation on the volatility surface, translated from
`vol_interp` in `pricer.py`.  `vol_mat i j` is the matrix entry at expiry
row `i` and tenor column `j`.  Indexing a list out of range, which raises
in Python, is given the default value `0` here; the theorems below only
query in-range indices of nonempty grids.  Natural subtraction `i1 - 1`
realises the Python expression `max(i1 - 1, 0)`. -/
def vol_interp (T tenor : ℚ) (vol_mat : ℕ → ℕ → ℚ)
    (expiry_grid tenor_grid : List ℚ) : ℚ :=
  let xc := clip T (expiry_grid.headD 0) (expiry_grid.getLastD 0)
  let yc := clip tenor (tenor_grid.headD 0) (tenor_grid.getLastD 0)
  let i1 := min (searchsorted expiry_grid xc) (expiry_grid.length - 1)
  let j1 := min (searchsorted tenor_grid yc) (tenor_grid.length - 1)
  let i0 := i1 - 1
  let j0 := j1 - 1
  let wx := if expiry_grid.getD i1 0 = expiry_grid.getD i0 0 then 0
    else (xc - expiry_grid.getD i0 0) /
      (expiry_grid.getD i1 0 - expiry_grid.getD i0 0)
  let wy := if tenor_grid.getD j1 0 = tenor_grid.getD j0 0 then 0
    else (yc - tenor_grid.getD j0 0) /
      (tenor_grid.getD j1 0 - tenor_grid.getD j0 0)
  (1 - wy) * ((1 - wx) * vol_mat i0 j0 + wx * vol_mat i1 j0) +
    wy * ((1 - wx) * vol_mat i0 j1 + wx * vol_mat i1 j1)

/-! ## Curve validation in `BermudanPricer.setup` -/

/-- Deduplication loop of `setup`: among consecutive entries carrying the
same date, keep the last one (`dedup[-1] = (dt, df)` overwrite).  The
accumulator is kept reversed, with its head playing the role of
`dedup[-1]`. -/
def dedupKeepLast (l : List (ℤ × ℚ)) : List (ℤ × ℚ) :=
  (l.foldl (fun acc p =>
    match acc with
    | [] => [p]
    | q :: rest => if p.1 = q.1 then p :: rest else p :: q :: rest) []).reverse

/-- Discount-factor validation loop of `setup`: walk the retained nodes in
order, raising `ValueError` at the first non-positive discount factor and
collecting a printed warning for each discount factor above `1.05`. -/
def checkDfs : List (ℤ × ℚ) → List String → Except String (List String)
  | [], ws => Except.ok ws
  | p :: rest, ws =>
    if p.2 ≤ 0 then Except.error "Discount factor <= 0"
    else checkDfs rest (if 105 / 100 < p.2 then ws ++ ["DF > 1.05"] else ws)

/-- Monotonicity warning loop of `setup`: a warning for every consecutive
pair of retained nodes whose discount factors increase by more than the
`1e-6` tolerance.  This loop can only warn, never raise. -/
def monoWarnings : List (ℤ × ℚ) → List String
  | [] => []
  | [_] => []
  | p :: q :: rest =>
    (if p.2 + 1 / 1000000 < q.2 then ["Non-monotone DFs"] else []) ++
      monoWarnings (q :: rest)

/-- Curve nodes retained by `setup`: the parsed pairs filtered to dates
strictly after the valuation date, sorted by date (the stable Python sort on
the serial number), then deduplicated keeping the last value per date.
Dates are their QuantLib serial numbers. -/
def retainedNodes (valDate : ℤ) (raw : List (ℤ × ℚ)) : List (ℤ × ℚ) :=
  dedupKeepLast
    ((raw.filter (fun p => decide (valDate < p.1))).mergeSort
      (fun a b => decide (a.1 ≤ b.1)))

/-- Curve part of `BermudanPricer.setup`, from parsed pairs to either the
fatal validation error or the retained nodes together with the data
quality warnings printed along the way. -/
def setupCurve (valDate : ℤ) (raw : List (ℤ × ℚ)) :
    Except String (List (ℤ × ℚ) × List String) :=
  if raw.filter (fun p => decide (valDate < p.1)) = [] then
    Except.error "No curve nodes after valuation date"
  else
    let nodes := retainedNodes valDate raw
    match checkDfs nodes [] with
    | Except.error e => Except.error e
    | Except.ok ws => Except.ok (nodes, ws ++ monoWarnings nodes)

/-! ## Tail of `BermudanPricer.calibrate` -/

/-- Model state produced by `calibrate`. -/
structure CalibResult where
  sigma_atm : ℚ
  sigma_inv : ℚ
  delta_spread : ℚ
  sigma_total : ℚ
  npv : ℚ
deriving DecidableEq

/-- Tail of `BermudanPricer.calibrate` once step 1 has produced
`sigma_atm`.  `priceBerm` models `_build_berm` followed by `_price_berm`
(the full-instrument valuation oracle as a function of the volatility);
`inverseSolve` models `_inverse_solve` as a function of the target.  The
Python guard `if not self.bbg_npv` is numeric falsiness of the float
target, that is, the test `bbg_npv = 0`. -/
def calibrate (bbg_npv sigma_atm : ℚ) (priceBerm : ℚ → ℚ)
    (inverseSolve : ℚ → ℚ) : CalibResult :=
  if bbg_npv = 0 then
    { sigma_atm := sigma_atm, sigma_inv := sigma_atm, delta_spread := 0,
      sigma_total := sigma_atm, npv := priceBerm sigma_atm }
  else
    let sigma_inv := inverseSolve bbg_npv
    { sigma_atm := sigma_atm, sigma_inv := sigma_inv,
      delta_spread := sigma_inv - sigma_atm, sigma_total := sigma_inv,
      npv := priceBerm sigma_inv }

/-- Boundary conversion feeding `BermudanPricer.__init__`: the benchmark
target reaches the pricer as `float(cfg.get("benchmark", ...).get("npv", 0))`
(`app.py`, `excel_bridge.py`), so an absent target arrives as the number
`0.0`. -/
def bbgNpvOf (supplied : Option ℚ) : ℚ := supplied.getD 0

/-! ## Repricing under bumped curves and shifted valuation dates -/

/-- Ambient QuantLib settings: the global evaluation date (as a serial
number). -/
structure QlSettings where
  evaluationDate : ℤ
deriving DecidableEq

/-- Translation of `BermudanPricer._reprice_with_dfs`.  The construction
of the bumped curve, index, schedule and swap is the fallible oracle
`build` (its `none` models a raised QuantLib exception), and the
Hull-White valuation of the Bermudan swaption on the still-live exercise
dates is the fallible oracle `priceOracle`; both observe the ambient
settings in force while the `try` body runs, namely the supplied
evaluation date `ev`.  The result pairs the body outcome (`none` models
an exception propagating out of the `try` block) with the settings after
the `finally` block has restored the saved evaluation date. -/
def reprice_with_dfs (build : QlSettings → ℤ → List ℚ → Option Unit)
    (priceOracle : QlSettings → List ℤ → ℚ → Option ℚ)
    (ex_dates : List ℤ) (s : QlSettings) (ref ev : ℤ) (dfs : List ℚ)
    (sigma : ℚ) : Option ℚ × QlSettings :=
  let saved := s.evaluationDate
  let s1 : QlSettings := { evaluationDate := ev }
  let r : Option ℚ :=
    match build s1 ref dfs with
    | none => none
    | some _ =>
      let ed := ex_dates.filter (fun d => decide (ev < d))
      if ed = [] then some 0 else priceOracle s1 ed sigma
  (r, { evaluationDate := saved })

/-- Theta branch of `compute_greeks`: advance the valuation date by one
calendar day, reprice the instrument under the rescaled discount factors
`tdfs` at the same total volatility, then subtract the base price, with no
annualization.  A raised exception (`none`) propagates. -/
def theta_roll (build : QlSettings → ℤ → List ℚ → Option Unit)
    (priceOracle : QlSettings → List ℤ → ℚ → Option ℚ)
    (ex_dates : List ℤ) (s : QlSettings) (ref : ℤ) (tdfs : List ℚ)
    (sigma npv : ℚ) : Option ℚ :=
  let nxt := ref + 1
  ((reprice_with_dfs build priceOracle ex_dates s nxt nxt tdfs sigma).1).map
    (fun pt => pt - npv)

/-! ## Closed-form Bachelier (normal model) basket prices -/

/-- Gauss error function, the mathematical function computed by
`math.erf`. -/
noncomputable def erf (x : ℝ) : ℝ :=
  (2 / Real.sqrt Real.pi) * ∫ t in (0 : ℝ)..x, Real.exp (-t ^ 2)

/-- Translation of `bachelier_receiver`: undiscounted intrinsic value when
the volatility or the time to expiry is non-positive, otherwise the
normal-model receiver formula. -/
noncomputable def bachelier_receiver (F K sigma T annuity : ℝ) : ℝ :=
  if sigma ≤ 0 ∨ T ≤ 0 then annuity * max (K - F) 0
  else
    let std := sigma * Real.sqrt T
    let d := (F - K) / std
    let phi := Real.exp (-(1 / 2) * d * d) / Real.sqrt (2 * Real.pi)
    let Phi_m := (1 / 2) * (1 + erf (-d / Real.sqrt 2))
    annuity * ((K - F) * Phi_m + std * phi)

/-- Translation of `bachelier_payer`, the payer counterpart with the same
branch condition. -/
noncomputable def bachelier_payer (F K sigma T annuity : ℝ) : ℝ :=
  if sigma ≤ 0 ∨ T ≤ 0 then annuity * max (F - K) 0
  else
    let std := sigma * Real.sqrt T
    let d := (F - K) / std
    let phi := Real.exp (-(1 / 2) * d * d) / Real.sqrt (2 * Real.pi)
    let Phi := (1 / 2) * (1 + erf (d / Real.sqrt 2))
    annuity * ((F - K) * Phi + std * phi)

/-! ## Logit reparameterization of mean reversion in `_calib_joint` -/

/-- Lower bound on mean reversion in the joint calibration. -/
noncomputable def A_MIN : ℝ := 1 / 1000

/-- Upper bound on mean reversion in the joint calibration. -/
noncomputable def A_MAX : ℝ := 1 / 2

/-- Translation of `_calib_joint._logit`: map a mean reversion in the
bounded interval to the real line, clamping the normalized coordinate away
from 0 and 1 before taking the log-odds. -/
noncomputable def logit (a : ℝ) : ℝ :=
  let t := (a - A_MIN) / (A_MAX - A_MIN)
  let t1 := max (1 / 10 ^ 10) (min (1 - 1 / 10 ^ 10) t)
  Real.log (t1 / (1 - t1))

/-- Translation of `_calib_joint._inv_logit`: map an unconstrained real
optimizer coordinate back to a mean reversion through the sigmoid. -/
noncomputable def inv_logit (x : ℝ) : ℝ :=
  let t := 1 / (1 + Real.exp (-x))
  A_MIN + t * (A_MAX - A_MIN)

/-! ## Calibration objectives and oracle failure handling -/

/-- Objective of `_calib_sigma_atm` over the log-volatility coordinate.
`oracle a sigma mkt` returns the Hull-White model price of the basket
entry whose closed-form market price is `mkt`, or `none` when the engine
raises.  The source objective has no `try` block, so a raised pricing
exception makes the whole objective evaluation raise, modelled by a
`none` result that short-circuits the sum. -/
noncomputable def atm_obj (oracle : ℝ → ℝ → ℝ → Option ℝ) (a : ℝ)
    (basket : List ℝ) (x : ℝ) : Option ℝ :=
  let sigma := 1 / 10 ^ 8 + Real.exp x
  basket.foldlM (fun acc mkt =>
    (oracle a sigma mkt).map (fun p => acc + (p - mkt) ^ 2 / max 1 |mkt|)) 0

/-- Body of the `try` block in the objective of `_calib_joint`: sum the
weighted squared pricing errors over the basket, `none` when any oracle
invocation raises. -/
noncomputable def joint_obj_body (oracle : ℝ → ℝ → ℝ → Option ℝ)
    (aVal sigma : ℝ) (basket : List ℝ) : Option ℝ :=
  basket.foldlM (fun err mkt =>
    (oracle aVal sigma mkt).map
      (fun model => err + (model - mkt) ^ 2 / max 1 |mkt|)) 0

/-- Objective of `_calib_joint` over the two unconstrained coordinates:
the `except` clause scores any raised trial point as the effectively
infinite value `1e20`. -/
noncomputable def joint_obj (oracle : ℝ → ℝ → ℝ → Option ℝ)
    (basket : List ℝ) (x0 x1 : ℝ) : ℝ :=
  match joint_obj_body oracle (inv_logit x0) (1 / 10 ^ 8 + Real.exp x1)
      basket with
  | some e => e
  | none => 10 ^ 20

/-! ## Curve bump and the Gamma formula in `compute_greeks` -/

/-- Translation of `BermudanPricer._bump_dfs`: scale each retained
discount factor by a continuously compounded parallel shift of `bp` basis
points, proportional to the year fraction of its node date. -/
noncomputable def bump_dfs (yearFrac : ℤ → ℝ) (node_dates : List ℤ)
    (node_dfs : List ℝ) (bp : ℝ) : List ℝ :=
  (node_dates.zip node_dfs).map
    (fun p => p.2 * Real.exp (-bp / 10000 * yearFrac p.1))

/-- DV01 and Gamma section of `compute_greeks`.  `reprice` models
`_reprice_with_dfs` at the unchanged valuation date as a function of the
bumped discount factors, and `p0` is the stored base NPV `self.npv`.  The
repricings `pu` and `pd` are computed once, at the DV01 bump size, and the
Gamma line reuses them while dividing by the square of the Gamma bump
size. -/
noncomputable def greeks_gamma (reprice : List ℝ → ℝ) (yearFrac : ℤ → ℝ)
    (node_dates : List ℤ) (node_dfs : List ℝ)
    (dv01_bp gamma_bp p0 : ℝ) : ℝ :=
  let pu := reprice (bump_dfs yearFrac node_dates node_dfs dv01_bp)
  let pd := reprice (bump_dfs yearFrac node_dates node_dfs (-dv01_bp))
  (pu - 2 * p0 + pd) / gamma_bp ^ 2

/-- The Gamma the specification describes: a centered second difference
whose repricings are performed at the Gamma bump size itself. -/
noncomputable def gamma_spec (reprice : List ℝ → ℝ) (yearFrac : ℤ → ℝ)
    (node_dates : List ℤ) (node_dfs : List ℝ) (gamma_bp p0 : ℝ) : ℝ :=
  (reprice (bump_dfs yearFrac node_dates node_dfs gamma_bp) - 2 * p0 +
    reprice (bump_dfs yearFrac node_dates node_dfs (-gamma_bp))) /
      gamma_bp ^ 2

/-! ## Helper lemmas on sorted grids -/

/-- Monotone lookup on a strictly sorted list. -/
lemma sorted_getD_lt (g : List ℚ) (hs : List.Sorted (· < ·) g) {i j : ℕ}
    (hij : i < j) (hj : j < g.length) : g.getD i 0 < g.getD j 0 := by
  rw [List.getD_eq_getElem _ _ (lt_trans hij hj), List.getD_eq_getElem _ _ hj]
  have h := hs.rel_get_of_lt (a := ⟨i, lt_trans hij hj⟩) (b := ⟨j, hj⟩) hij
  simpa using h

/-- Weakly monotone lookup on a strictly sorted list. -/
lemma sorted_getD_le (g : List ℚ) (hs : List.Sorted (· < ·) g) {i j : ℕ}
    (hij : i ≤ j) (hj : j < g.length) : g.getD i 0 ≤ g.getD j 0 := by
  rcases Nat.eq_or_lt_of_le hij with h | h
  · subst h; exact le_refl _
  · exact le_of_lt (sorted_getD_lt g hs h hj)

/-- The default-valued last element of a nonempty list is its entry at the
final index. -/
lemma getLastD_eq_getD (a : ℚ) (t : List ℚ) :
    (a :: t).getLastD 0 = (a :: t).getD t.length 0 := by
  induction t generalizing a with
  | nil => rfl
  | cons c t2 ih => simpa using ih c

/-- Clamping a value that is already on the grid is the identity. -/
lemma clip_getD (g : List ℚ) (hs : List.Sorted (· < ·) g) {i : ℕ}
    (hi : i < g.length) :
    clip (g.getD i 0) (g.headD 0) (g.getLastD 0) = g.getD i 0 := by
  obtain ⟨a, t, rfl⟩ : ∃ a t, g = a :: t := by
    cases g with
    | nil => simp at hi
    | cons a t => exact ⟨a, t, rfl⟩
  have h1 : (a :: t).headD 0 ≤ (a :: t).getD i 0 := by
    show (a :: t).getD 0 0 ≤ (a :: t).getD i 0
    exact sorted_getD_le _ hs (Nat.zero_le i) hi
  have h2 : (a :: t).getD i 0 ≤ (a :: t).getLastD 0 := by
    rw [getLastD_eq_getD]
    exact sorted_getD_le _ hs (Nat.lt_succ_iff.1 hi) (by simp)
  unfold clip
  rw [max_eq_left h1, min_eq_left h2]

/-- Searching a sorted grid for a value it already contains returns the
index of that value. -/
lemma searchsorted_getD (g : List ℚ) (hs : List.Sorted (· < ·) g) {i : ℕ}
    (hi : i < g.length) : searchsorted g (g.getD i 0) = i := by
  unfold searchsorted
  rw [List.findIdx_eq hi]
  constructor
  · rw [List.getD_eq_getElem _ _ hi]
    simp
  · intro j hj
    have hlt := hs.rel_get_of_lt (a := ⟨j, lt_trans hj hi⟩) (b := ⟨i, hi⟩) hj
    rw [List.getD_eq_getElem _ _ hi]
    simp only [decide_eq_false_iff_not, not_le]
    simpa using hlt

/-- C7: for every volatility matrix over strictly increasing expiry and
tenor grids and every query coinciding exactly with a grid point, the
bilinear interpolator returns exactly the stored grid value. -/
theorem vol_interp_on_grid (vol_mat : ℕ → ℕ → ℚ) (eg tg : List ℚ)
    (hse : List.Sorted (· < ·) eg) (hst : List.Sorted (· < ·) tg)
    (i j : ℕ) (hi : i < eg.length) (hj : j < tg.length) :
    vol_interp (eg.getD i 0) (tg.getD j 0) vol_mat eg tg = vol_mat i j := by
  have hxc := clip_getD eg hse hi
  have hyc := clip_getD tg hst hj
  have hi1 : min (searchsorted eg (eg.getD i 0)) (eg.length - 1) = i := by
    rw [searchsorted_getD eg hse hi]
    exact min_eq_left (Nat.le_sub_one_of_lt hi)
  have hj1 : min (searchsorted tg (tg.getD j 0)) (tg.length - 1) = j := by
    rw [searchsorted_getD tg hst hj]
    exact min_eq_left (Nat.le_sub_one_of_lt hj)
  simp only [vol_interp]
  rw [hxc, hyc, hi1, hj1]
  rcases i with _ | k <;> rcases j with _ | m
  · simp
  · have hney : tg.getD (m + 1) 0 ≠ tg.getD m 0 :=
      ne_of_gt (sorted_getD_lt tg hst (Nat.lt_succ_self m) hj)
    simp only [Nat.zero_sub, Nat.add_sub_cancel, if_pos rfl, if_neg hney,
      div_self (sub_ne_zero_of_ne hney)]
    ring
  · have hnex : eg.getD (k + 1) 0 ≠ eg.getD k 0 :=
      ne_of_gt (sorted_getD_lt eg hse (Nat.lt_succ_self k) hi)
    simp only [Nat.zero_sub, Nat.add_sub_cancel, if_pos rfl, if_neg hnex,
      div_self (sub_ne_zero_of_ne hnex)]
    ring
  · have hnex : eg.getD (k + 1) 0 ≠ eg.getD k 0 :=
      ne_of_gt (sorted_getD_lt eg hse (Nat.lt_succ_self k) hi)
    have hney : tg.getD (m + 1) 0 ≠ tg.getD m 0 :=
      ne_of_gt (sorted_getD_lt tg hst (Nat.lt_succ_self m) hj)
    simp only [Nat.add_sub_cancel, if_neg hnex, if_neg hney,
      div_self (sub_ne_zero_of_ne hnex), div_self (sub_ne_zero_of_ne hney)]
    ring

/-- Witness for C7 at a concrete surface: grids `[1, 2]` and `[3, 5]` with
matrix entry `10 * i + j`, queried exactly at grid point `(1, 0)`. -/
theorem vol_interp_on_grid_witness :
    vol_interp 2 3 (fun i j => 10 * i + j) [1, 2] [3, 5] =
      (fun i j : ℕ => (10 * i + j : ℚ)) 1 0 :=
  vol_interp_on_grid (fun i j => 10 * i + j) [1, 2] [3, 5]
    (by decide) (by decide) 1 0 (by decide) (by decide)

/-! ## Curve validation theorems -/

/-- The discount-factor validation loop raises precisely when some node
in the list it walks carries a non-positive discount factor; the warning
accumulator never influences that. -/
lemma checkDfs_error_iff (l : List (ℤ × ℚ)) : ∀ ws : List String,
    (∃ e, checkDfs l ws = Except.error e) ↔ ∃ p ∈ l, p.2 ≤ 0 := by
  induction l with
  | nil => intro ws; simp [checkDfs]
  | cons p rest ih =>
    intro ws
    by_cases hp : p.2 ≤ 0
    · simp only [checkDfs, if_pos hp]
      constructor
      · intro _; exact ⟨p, List.mem_cons_self p rest, hp⟩
      · intro _; exact ⟨"Discount factor <= 0", rfl⟩
    · simp only [checkDfs, if_neg hp]
      rw [ih]
      constructor
      · rintro ⟨q, hq, hq2⟩; exact ⟨q, List.mem_cons_of_mem p hq, hq2⟩
      · rintro ⟨q, hq, hq2⟩
        rcases List.mem_cons.1 hq with h | h
        · subst h; exact absurd hq2 hp
        · exact ⟨q, h, hq2⟩

/-- C8: the curve part of setup raises a fatal error exactly when no
parsed node lies strictly after the valuation date or some retained
discount factor is non-positive; a discount factor above 1.05 or a
non-monotone pair can only add warnings, never an error. -/
theorem setupCurve_error_iff (valDate : ℤ) (raw : List (ℤ × ℚ)) :
    (∃ e, setupCurve valDate raw = Except.error e) ↔
      (raw.filter (fun p => decide (valDate < p.1)) = [] ∨
        ∃ p ∈ retainedNodes valDate raw, p.2 ≤ 0) := by
  by_cases hf : raw.filter (fun p => decide (valDate < p.1)) = []
  · simp only [setupCurve, if_pos hf]
    exact ⟨fun _ => Or.inl hf, fun _ => ⟨"No curve nodes after valuation date", rfl⟩⟩
  · simp only [setupCurve, if_neg hf]
    cases h : checkDfs (retainedNodes valDate raw) [] with
    | error e =>
      simp only [h]
      constructor
      · intro _; exact Or.inr ((checkDfs_error_iff _ []).1 ⟨e, h⟩)
      · intro _; exact ⟨e, rfl⟩
    | ok ws =>
      simp only [h]
      constructor
      · rintro ⟨e, he⟩; exact Except.noConfusion he
      · rintro (hc | hc)
        · exact absurd hc hf
        · rcases (checkDfs_error_iff _ []).2 hc with ⟨e, he⟩
          rw [h] at he
          exact Except.noConfusion he

/-! ## Calibration orchestration theorems -/

/-- C4: with no external target (the float target is the falsy 0.0),
calibrate stops after the ATM stage: the result does not depend on the
inverse-fit procedure at all, the delta spread is exactly 0, the total
volatility is the ATM-fitted volatility, and the headline NPV is the
full-instrument price at that total volatility. -/
theorem calibrate_no_target (sigma_atm : ℚ) (priceBerm : ℚ → ℚ)
    (inv1 inv2 : ℚ → ℚ) :
    calibrate 0 sigma_atm priceBerm inv1 = calibrate 0 sigma_atm priceBerm inv2 ∧
    (calibrate 0 sigma_atm priceBerm inv1).delta_spread = 0 ∧
    (calibrate 0 sigma_atm priceBerm inv1).sigma_total = sigma_atm ∧
    (calibrate 0 sigma_atm priceBerm inv1).npv = priceBerm sigma_atm := by
  simp [calibrate]

/-- C10: a supplied external target equal to 0.0 is treated identically
to an absent one, because the guard is numeric truthiness of the float
target: the inverse-fit stage is skipped, the delta spread is 0 and the
total volatility is the ATM-fitted volatility. -/
theorem calibrate_zero_target_as_absent (sigma_atm : ℚ) (priceBerm : ℚ → ℚ)
    (inverseSolve : ℚ → ℚ) :
    calibrate (bbgNpvOf (some 0)) sigma_atm priceBerm inverseSolve =
      calibrate (bbgNpvOf none) sigma_atm priceBerm inverseSolve ∧
    (calibrate (bbgNpvOf (some 0)) sigma_atm priceBerm inverseSolve).delta_spread = 0 ∧
    (calibrate (bbgNpvOf (some 0)) sigma_atm priceBerm inverseSolve).sigma_total =
      sigma_atm := by
  simp [calibrate, bbgNpvOf]

/-! ## Repricing theorems -/

/-- C9: every repricing under bumped discount factors or a shifted
valuation date hands back the ambient settings with the saved evaluation
date restored, whatever the supplied date was and even when the curve
construction or the valuation oracle raises (returns none). -/
theorem reprice_restores_evaluation_date
    (build : QlSettings → ℤ → List ℚ → Option Unit)
    (priceOracle : QlSettings → List ℤ → ℚ → Option ℚ)
    (ex_dates : List ℤ) (s : QlSettings) (ref ev : ℤ) (dfs : List ℚ)
    (sigma : ℚ) :
    (reprice_with_dfs build priceOracle ex_dates s ref ev dfs sigma).2 = s :=
  rfl

/-- C3: any repricing under a shifted valuation date recomputes the
still-live exercise dates as those strictly after the new valuation date,
and when that set is empty the repriced value is exactly 0.  For the
Theta roll the strictly-after filter is taken at the next calendar day,
the reprice yields exactly 0, and only then is the base price
subtracted. -/
theorem reprice_depleted_exercises
    (build : QlSettings → ℤ → List ℚ → Option Unit)
    (priceOracle : QlSettings → List ℤ → ℚ → Option ℚ)
    (ex_dates : List ℤ) (s : QlSettings) (ref ev : ℤ) (dfs tdfs : List ℚ)
    (sigma npv : ℚ)
    (hb1 : build { evaluationDate := ev } ref dfs = some Unit.unit)
    (hb2 : build { evaluationDate := ref + 1 } (ref + 1) tdfs = some Unit.unit) :
    (∀ d : ℤ, d ∈ ex_dates.filter (fun x => decide (ev < x)) ↔
      d ∈ ex_dates ∧ ev < d) ∧
    (ex_dates.filter (fun x => decide (ev < x)) = [] →
      (reprice_with_dfs build priceOracle ex_dates s ref ev dfs sigma).1 =
        some 0) ∧
    (ex_dates.filter (fun x => decide (ref + 1 < x)) = [] →
      theta_roll build priceOracle ex_dates s ref tdfs sigma npv =
        some (0 - npv)) := by
  refine ⟨?_, ?_, ?_⟩
  · intro d; simp [List.mem_filter]
  · intro h; simp [reprice_with_dfs, hb1, h]
  · intro h; simp [theta_roll, reprice_with_dfs, hb2, h]

/-- Witness for C3: a single exercise date 10 already lapsed at
valuation date 12, base price 7. -/
theorem reprice_depleted_exercises_witness :
    (reprice_with_dfs (fun _ _ _ => some Unit.unit) (fun _ _ _ => some 5)
      [10] { evaluationDate := 3 } 12 12 [1] 1).1 = some 0 ∧
    theta_roll (fun _ _ _ => some Unit.unit) (fun _ _ _ => some 5)
      [10] { evaluationDate := 3 } 12 [1] 1 7 = some (0 - 7) :=
  ⟨(reprice_depleted_exercises (fun _ _ _ => some Unit.unit)
      (fun _ _ _ => some 5) [10] { evaluationDate := 3 } 12 12 [1] [1] 1 7
      rfl rfl).2.1 (by decide),
   (reprice_depleted_exercises (fun _ _ _ => some Unit.unit)
      (fun _ _ _ => some 5) [10] { evaluationDate := 3 } 12 12 [1] [1] 1 7
      rfl rfl).2.2 (by decide)⟩

/-! ## Mean-reversion reparameterization theorems -/

/-- C5: the logit reparameterization maps every real optimizer input to a
mean reversion strictly inside the interval from 0.001 to 0.50, never
exactly at either boundary; in particular the value returned by the joint
calibration, the image of whatever point the optimizer stops at, lies
inside the interval for any seed, the upper bound 0.50 included. -/
theorem inv_logit_strictly_inside (x : ℝ) :
    (0.001 : ℝ) < inv_logit x ∧ inv_logit x < (0.5 : ℝ) := by
  have h1 : 0 < 1 + Real.exp (-x) := by positivity
  have ht0 : 0 < (1 + Real.exp (-x))⁻¹ := inv_pos.2 h1
  have ht1 : (1 + Real.exp (-x))⁻¹ < 1 := by
    apply inv_lt_one_of_one_lt₀
    have h2 := Real.exp_pos (-x)
    linarith
  unfold inv_logit A_MIN A_MAX
  norm_num
  constructor <;> nlinarith [ht0, ht1]

/-! ## Oracle failure handling in the calibration objectives -/

/-- Counterexample to C2: the ATM volatility fit has no protective block,
so a trial point at which every oracle invocation raises makes the whole
objective evaluation raise (the none outcome), which propagates out of
the minimizer and the calibration call instead of being scored as an
effectively infinite value. -/
theorem atm_obj_propagates_failure :
    atm_obj (fun _ _ _ => none) (3 / 100) [100] 0 = none := rfl

/-- C2 as amended: in the joint calibration, a trial point at which the
oracle raises inside the objective body is scored as the effectively
infinite value 1e20, so no exception propagates out of that fit. -/
theorem joint_obj_scores_failure (oracle : ℝ → ℝ → ℝ → Option ℝ)
    (basket : List ℝ) (x0 x1 : ℝ)
    (h : joint_obj_body oracle (inv_logit x0) (1 / 10 ^ 8 + Real.exp x1)
      basket = none) :
    joint_obj oracle basket x0 x1 = 10 ^ 20 := by
  simp only [joint_obj, h]

/-- Witness for the amended C2 at a concrete failing oracle and a
one-entry basket. -/
theorem joint_obj_scores_failure_witness :
    joint_obj (fun _ _ _ => none) [100] 0 0 = 10 ^ 20 :=
  joint_obj_scores_failure (fun _ _ _ => none) [100] 0 0 rfl

/-! ## Bachelier put-call parity -/

/-- The error function is odd. -/
lemma erf_neg (x : ℝ) : erf (-x) = -erf x := by
  unfold erf
  rw [← mul_neg]
  congr 1
  have h := intervalIntegral.integral_comp_neg (a := (0 : ℝ)) (b := -x)
    (fun t => Real.exp (-t ^ 2))
  simp only [neg_neg, neg_zero] at h
  rw [intervalIntegral.integral_symm 0 x] at h
  simp only [neg_sq] at h
  exact h

/-- C6: put-call parity of the closed-form basket prices, in the
normal-formula branch as well as in the degenerate intrinsic-value
branch: the receiver price minus the payer price equals the annuity times
the strike minus the forward, for all inputs. -/
theorem bachelier_parity (F K sigma T annuity : ℝ) :
    bachelier_receiver F K sigma T annuity -
      bachelier_payer F K sigma T annuity = annuity * (K - F) := by
  unfold bachelier_receiver bachelier_payer
  by_cases h : sigma ≤ 0 ∨ T ≤ 0
  · rw [if_pos h, if_pos h]
    rcases le_total F K with hle | hle
    · rw [max_eq_left (by linarith), max_eq_right (by linarith)]
      ring
    · rw [max_eq_right (by linarith), max_eq_left (by linarith)]
      ring
  · rw [if_neg h, if_neg h]
    have he : erf (-((F - K) / (sigma * Real.sqrt T)) / Real.sqrt 2) =
        -erf ((F - K) / (sigma * Real.sqrt T) / Real.sqrt 2) := by
      rw [neg_div, erf_neg]
    dsimp only
    rw [he]
    ring

/-! ## Gamma bump-size theorems -/

/-- Counterexample to C1: with the DV01 bump at 1bp and the Gamma bump at
2bp, the Gamma computed by compute_greeks, which reuses the repricings at
the DV01 bump size, differs from the centered second difference repriced
at the Gamma bump size.  The repricing oracle reads off the single bumped
discount factor of a one-node curve with unit year fraction. -/
theorem greeks_gamma_spec_counterexample :
    greeks_gamma (fun l => l.headD 0) (fun _ => 1) [0] [1] 1 2 0 ≠
      gamma_spec (fun l => l.headD 0) (fun _ => 1) [0] [1] 2 0 := by
  have h1 : greeks_gamma (fun l => l.headD 0) (fun _ => 1) [0] [1] 1 2 0 =
      2 * Real.cosh (1 / 10000) / 4 := by
    simp only [greeks_gamma, bump_dfs, List.zip, List.zipWith, List.map,
      List.headD]
    rw [Real.cosh_eq]
    norm_num
    ring
  have h2 : gamma_spec (fun l => l.headD 0) (fun _ => 1) [0] [1] 2 0 =
      2 * Real.cosh (2 / 10000) / 4 := by
    simp only [gamma_spec, bump_dfs, List.zip, List.zipWith, List.map,
      List.headD]
    rw [Real.cosh_eq]
    norm_num
    ring
  rw [h1, h2]
  have hc : Real.cosh (1 / 10000) < Real.cosh (2 / 10000) := by
    rw [Real.cosh_lt_cosh, abs_of_pos (by norm_num), abs_of_pos (by norm_num)]
    norm_num
  intro hcontra
  have : Real.cosh (1 / 10000) = Real.cosh (2 / 10000) := by linarith
  exact absurd this (ne_of_lt hc)

/-- C1 as amended: compute_greeks returns Gamma as the centered second
difference built from the base price and the two repricings performed at
the DV01 bump size, divided by the square of the Gamma bump size;
whenever the two configured bump sizes agree, as with the 1bp defaults,
this is exactly the formula the claim states at the Gamma bump size. -/
theorem greeks_gamma_eq_spec (reprice : List ℝ → ℝ) (yearFrac : ℤ → ℝ)
    (node_dates : List ℤ) (node_dfs : List ℝ) (dv01_bp gamma_bp p0 : ℝ)
    (h : dv01_bp = gamma_bp) :
    greeks_gamma reprice yearFrac node_dates node_dfs dv01_bp gamma_bp p0 =
      gamma_spec reprice yearFrac node_dates node_dfs gamma_bp p0 := by
  subst h
  rfl

/-- Witness for the amended C1 at the default equal bump sizes of 1bp. -/
theorem greeks_gamma_eq_spec_witness :
    greeks_gamma (fun l => l.headD 0) (fun _ => 1) [0] [1] 1 1 0 =
      gamma_spec (fun l => l.headD 0) (fun _ => 1) [0] [1] 1 0 :=
  greeks_gamma_eq_spec (fun l => l.headD 0) (fun _ => 1) [0] [1] 1 1 0 rfl

end BermudanPricerPy
